import Mathlib

/-!
Verification of the dipole-magnet pair plugin
(`storm_gazebo_ros_magnet`, file `dipole_magnet_pair.cpp`).

The development embeds the plugin's vector/quaternion arithmetic
(`ignition::math::Vector3d`, `ignition::math::Quaterniond`,
`ignition::math::Pose3d`) over the real numbers, then embeds the
functions `GetForceTorque`, `GetMFS`, the pose-resolution step of
`OnUpdate`, the offset-loading fragment of `Load`, and the publish
gate of `PublishData`, and proves the specified properties of each.
-/

/-- Embeds `ignition::math::Vector3d`: three real components. -/
@[ext]
structure Vec3 where
  x : ℝ
  y : ℝ
  z : ℝ

namespace Vec3

instance : Zero Vec3 := ⟨⟨0, 0, 0⟩⟩

instance : Add Vec3 := ⟨fun a b => ⟨a.x + b.x, a.y + b.y, a.z + b.z⟩⟩

instance : Sub Vec3 := ⟨fun a b => ⟨a.x - b.x, a.y - b.y, a.z - b.z⟩⟩

instance : Neg Vec3 := ⟨fun a => ⟨-a.x, -a.y, -a.z⟩⟩

instance : SMul ℝ Vec3 := ⟨fun c a => ⟨c * a.x, c * a.y, c * a.z⟩⟩

/-- Componentwise division by a scalar, as in `Vector3d::operator/(double)`. -/
noncomputable instance : HDiv Vec3 ℝ Vec3 := ⟨fun a c => ⟨a.x / c, a.y / c, a.z / c⟩⟩

/-- Embeds `Vector3d::Dot`. -/
def dot (a b : Vec3) : ℝ := a.x * b.x + a.y * b.y + a.z * b.z

/-- Embeds `Vector3d::Cross`. -/
def cross (a b : Vec3) : Vec3 :=
  ⟨a.y * b.z - a.z * b.y, a.z * b.x - a.x * b.z, a.x * b.y - a.y * b.x⟩

/-- Embeds `Vector3d::SquaredLength`. -/
def lengthSq (a : Vec3) : ℝ := a.x ^ 2 + a.y ^ 2 + a.z ^ 2

/-- Embeds `Vector3d::Length` (`sqrt` of the squared length). -/
noncomputable def length (a : Vec3) : ℝ := Real.sqrt a.lengthSq

@[simp] theorem zero_x : (0 : Vec3).x = 0 := rfl

@[simp] theorem zero_y : (0 : Vec3).y = 0 := rfl

@[simp] theorem zero_z : (0 : Vec3).z = 0 := rfl

@[simp] theorem add_x (a b : Vec3) : (a + b).x = a.x + b.x := rfl

@[simp] theorem add_y (a b : Vec3) : (a + b).y = a.y + b.y := rfl

@[simp] theorem add_z (a b : Vec3) : (a + b).z = a.z + b.z := rfl

@[simp] theorem sub_x (a b : Vec3) : (a - b).x = a.x - b.x := rfl

@[simp] theorem sub_y (a b : Vec3) : (a - b).y = a.y - b.y := rfl

@[simp] theorem sub_z (a b : Vec3) : (a - b).z = a.z - b.z := rfl

@[simp] theorem neg_x (a : Vec3) : (-a).x = -a.x := rfl

@[simp] theorem neg_y (a : Vec3) : (-a).y = -a.y := rfl

@[simp] theorem neg_z (a : Vec3) : (-a).z = -a.z := rfl

@[simp] theorem smul_x (c : ℝ) (a : Vec3) : (c • a).x = c * a.x := rfl

@[simp] theorem smul_y (c : ℝ) (a : Vec3) : (c • a).y = c * a.y := rfl

@[simp] theorem smul_z (c : ℝ) (a : Vec3) : (c • a).z = c * a.z := rfl

@[simp] theorem div_x (a : Vec3) (c : ℝ) : (a / c).x = a.x / c := rfl

@[simp] theorem div_y (a : Vec3) (c : ℝ) : (a / c).y = a.y / c := rfl

@[simp] theorem div_z (a : Vec3) (c : ℝ) : (a / c).z = a.z / c := rfl

theorem lengthSq_nonneg (a : Vec3) : 0 ≤ a.lengthSq := by
  unfold lengthSq; positivity

theorem length_nonneg (a : Vec3) : 0 ≤ a.length :=
  Real.sqrt_nonneg _

theorem length_pos (a : Vec3) (h : a ≠ 0) : 0 < a.length := by
  rcases a with ⟨ax, ay, az⟩
  have hne : ¬(ax = 0 ∧ ay = 0 ∧ az = 0) := by
    rintro ⟨h1, h2, h3⟩
    exact h (by simp [h1, h2, h3]; rfl)
  unfold length lengthSq
  apply Real.sqrt_pos.mpr
  have key : ∀ t : ℝ, t ≠ 0 → 0 < t ^ 2 := fun t ht =>
    lt_of_le_of_ne (sq_nonneg t) (Ne.symm (pow_ne_zero 2 ht))
  rcases not_and_or.mp hne with h1 | hrest
  · nlinarith [key ax h1, sq_nonneg ay, sq_nonneg az]
  · rcases not_and_or.mp hrest with h2 | h3
    · nlinarith [key ay h2, sq_nonneg ax, sq_nonneg az]
    · nlinarith [key az h3, sq_nonneg ax, sq_nonneg ay]

theorem length_smul (c : ℝ) (a : Vec3) : (c • a).length = |c| * a.length := by
  unfold length lengthSq
  simp only [smul_x, smul_y, smul_z]
  rw [show (c * a.x) ^ 2 + (c * a.y) ^ 2 + (c * a.z) ^ 2
        = c ^ 2 * (a.x ^ 2 + a.y ^ 2 + a.z ^ 2) from by ring,
      Real.sqrt_mul (sq_nonneg c), Real.sqrt_sq_eq_abs]

theorem length_sub_comm (a b : Vec3) : (b - a).length = (a - b).length := by
  unfold length lengthSq
  exact congrArg Real.sqrt (by simp only [sub_x, sub_y, sub_z]; ring)

@[simp] theorem add_sub_cancel_left (a b : Vec3) : (a + b) - a = b := by
  ext <;> simp

end Vec3

/-- Embeds `ignition::math::Quaterniond`: scalar part `w`, vector part
`x`, `y`, `z`. -/
@[ext]
structure Quat where
  w : ℝ
  x : ℝ
  y : ℝ
  z : ℝ

namespace Quat

/-- Embeds the Hamilton product `Quaterniond::operator*`. -/
instance : Mul Quat :=
  ⟨fun a b =>
    ⟨a.w * b.w - a.x * b.x - a.y * b.y - a.z * b.z,
     a.w * b.x + a.x * b.w + a.y * b.z - a.z * b.y,
     a.w * b.y - a.x * b.z + a.y * b.w + a.z * b.x,
     a.w * b.z + a.x * b.y - a.y * b.x + a.z * b.w⟩⟩

@[simp] theorem mul_w (a b : Quat) :
    (a * b).w = a.w * b.w - a.x * b.x - a.y * b.y - a.z * b.z := rfl

@[simp] theorem mul_x (a b : Quat) :
    (a * b).x = a.w * b.x + a.x * b.w + a.y * b.z - a.z * b.y := rfl

@[simp] theorem mul_y (a b : Quat) :
    (a * b).y = a.w * b.y - a.x * b.z + a.y * b.w + a.z * b.x := rfl

@[simp] theorem mul_z (a b : Quat) :
    (a * b).z = a.w * b.z + a.x * b.y - a.y * b.x + a.z * b.w := rfl

/-- Squared norm of a quaternion. -/
def normSq (q : Quat) : ℝ := q.w ^ 2 + q.x ^ 2 + q.y ^ 2 + q.z ^ 2

/-- Embeds `Quaterniond::Inverse`: divide the conjugate by the squared
norm, returning the identity quaternion when the squared norm is zero. -/
noncomputable def inverse (q : Quat) : Quat :=
  let s := q.w ^ 2 + q.x ^ 2 + q.y ^ 2 + q.z ^ 2
  if s = 0 then ⟨1, 0, 0, 0⟩ else ⟨q.w / s, -q.x / s, -q.y / s, -q.z / s⟩

/-- Embeds `Quaterniond::RotateVector`: conjugation `q * v * q.Inverse()`,
taking the vector part. -/
noncomputable def rotateVector (q : Quat) (v : Vec3) : Vec3 :=
  let t := q * (Quat.mk 0 v.x v.y v.z * q.inverse)
  ⟨t.x, t.y, t.z⟩

/-- Embeds `Quaterniond::RotateVectorReverse`: conjugation
`q.Inverse() * v * q`, taking the vector part. -/
noncomputable def rotateVectorReverse (q : Quat) (v : Vec3) : Vec3 :=
  let t := q.inverse * (Quat.mk 0 v.x v.y v.z * q)
  ⟨t.x, t.y, t.z⟩

/-- The squared norm is multiplicative (Euler four-square identity). -/
theorem normSq_mul (a b : Quat) : (a * b).normSq = a.normSq * b.normSq := by
  unfold normSq
  simp only [mul_w, mul_x, mul_y, mul_z]
  ring

/-- Rotation by the reverse conjugation is linear in the rotated vector. -/
theorem rotateVectorReverse_smul (q : Quat) (c : ℝ) (v : Vec3) :
    q.rotateVectorReverse (c • v) = c • q.rotateVectorReverse v := by
  unfold rotateVectorReverse
  generalize q.inverse = q2
  ext <;> simp <;> ring

end Quat

/-- Embeds `ignition::math::Pose3d`: position plus orientation. -/
structure Pose where
  pos : Vec3
  rot : Quat

/-- Embeds `DipoleMagnetPair::GetForceTorque` (dipole_magnet_pair.cpp,
lines 275-300): force and torque exerted on the self dipole by the other
dipole, with `m1 = m_other`, `m2 = m_self`, `p = p_self.Pos() - p_other.Pos()`,
`p_unit = p / p.Length()`, `K = 3.0*1e-7/pow(p.Length(), 4)`,
`Ktorque = 1e-7/pow(p.Length(), 3)`. -/
noncomputable def GetForceTorque (p_self : Pose) (m_self : Vec3)
    (p_other : Pose) (m_other : Vec3) : Vec3 × Vec3 :=
  let p : Vec3 := p_self.pos - p_other.pos
  let p_unit : Vec3 := p / p.length
  let m1 : Vec3 := m_other
  let m2 : Vec3 := m_self
  let K : ℝ := 3 * (1e-7) / p.length ^ 4
  let force : Vec3 := K • ((m1.dot p_unit) • m2 + (m2.dot p_unit) • m1 +
    (m1.dot m2) • p_unit - (5 * (m1.dot p_unit) * (m2.dot p_unit)) • p_unit)
  let Ktorque : ℝ := (1e-7) / p.length ^ 3
  let B1 : Vec3 := Ktorque • ((3 * (m1.dot p_unit)) • p_unit - m1)
  let torque : Vec3 := m2.cross B1
  (force, torque)

/-- Embeds `DipoleMagnetPair::GetMFS` (dipole_magnet_pair.cpp, lines
302-322): the field of the other dipole at the self location, rotated
into the self body frame with `RotateVectorReverse`. -/
noncomputable def GetMFS (p_self : Pose) (p_other : Pose) (m_other : Vec3) :
    Vec3 :=
  let p : Vec3 := p_self.pos - p_other.pos
  let p_unit : Vec3 := p / p.length
  let K : ℝ := (1e-7) / p.length ^ 3
  let B : Vec3 := K • ((3 * (m_other.dot p_unit)) • p_unit - m_other)
  p_self.rot.rotateVectorReverse B

/-- Embeds the pose-resolution step of `DipoleMagnetPair::OnUpdate`
(dipole_magnet_pair.cpp, lines 196-202): starting from the body's world
CoG pose, `p.Pos() += -p.Rot().RotateVector(offset.Pos())` and
`p.Rot() *= offset.Rot().Inverse()`. -/
noncomputable def resolveDipolePose (bodyPose : Pose) (offset : Pose) : Pose :=
  { pos := bodyPose.pos + -(bodyPose.rot.rotateVector offset.pos)
    rot := bodyPose.rot * offset.rot.inverse }

/-- Abstraction of the SDF configuration seen by `DipoleMagnetPair::Load`:
which elements are present, and the `Vector3d` value read for each element
name. -/
structure SdfConfig where
  hasElement : String → Bool
  getVec : String → Vec3

/-- Embeds the offset-position fragment of `DipoleMagnetPair::Load`
(dipole_magnet_pair.cpp, lines 114-120): both the `parentxyzOffset` and
the `childxyzOffset` branches assign `mag.first->offset.Pos()` from the
element named `xyzOffset`; `mag.second->offset.Pos()` keeps its default
(zero) value.  Returns the pair
(`mag.first->offset.Pos()`, `mag.second->offset.Pos()`). -/
def loadOffsetPositions (sdf : SdfConfig) : Vec3 × Vec3 :=
  let parent0 : Vec3 := ⟨0, 0, 0⟩
  let child0 : Vec3 := ⟨0, 0, 0⟩
  let parent1 : Vec3 :=
    if sdf.hasElement ("parentxyzOffset") then sdf.getVec ("xyzOffset")
    else parent0
  let parent2 : Vec3 :=
    if sdf.hasElement ("childxyzOffset") then sdf.getVec ("xyzOffset")
    else parent1
  (parent2, child0)

/-- Publisher bookkeeping state of `DipoleMagnetPair`: the subscriber
counter (`connect_count`, an `int`) and the rate-limit timestamp
(`last_time`).  `last_time` is default-initialised and, in this source
file, never assigned afterwards. -/
structure PubState where
  connect_count : ℤ
  last_time : ℝ

/-- Embeds `DipoleMagnetPair::Connect` (line 176): `connect_count++`. -/
def Connect (st : PubState) : PubState :=
  { st with connect_count := st.connect_count + 1 }

/-- Embeds `DipoleMagnetPair::Disconnect` (line 180): `connect_count--`. -/
def Disconnect (st : PubState) : PubState :=
  { st with connect_count := st.connect_count - 1 }

/-- Embeds the gating logic of `DipoleMagnetPair::PublishData`
(dipole_magnet_pair.cpp, lines 232-272): messages are emitted only when
`should_publish && connect_count > 0`, and, when `update_rate > 0`, only
when `(cur_time - last_time) >= 1.0/update_rate`.  The function returns
the post-call state and whether messages were emitted; faithfully to the
source, `last_time` is never updated. -/
noncomputable def PublishData (should_publish : Bool) (update_rate : ℝ)
    (st : PubState) (cur_time : ℝ) : PubState × Bool :=
  if should_publish = true ∧ st.connect_count > 0 then
    if update_rate > 0 ∧ cur_time - st.last_time < 1 / update_rate then
      (st, false)
    else
      (st, true)
  else
    (st, false)

theorem Vec3.sub_eq_zero_iff (a b : Vec3) : a - b = 0 ↔ a = b := by
  constructor
  · intro h
    ext
    · have := congrArg Vec3.x h; simp at this; linarith
    · have := congrArg Vec3.y h; simp at this; linarith
    · have := congrArg Vec3.z h; simp at this; linarith
  · intro h; subst h; ext <;> simp

theorem Vec3.length_sub_ne_zero (a b : Vec3) (h : a ≠ b) :
    (a - b).length ≠ 0 := by
  apply ne_of_gt
  apply Vec3.length_pos
  intro hz
  exact h ((Vec3.sub_eq_zero_iff a b).mp hz)

/-- C1: for distinct dipole positions and world-frame moments,
`GetForceTorque` returns the force
`Kf * ( mOther*(mSelf.rHat) + mSelf*(mOther.rHat) + rHat*(mSelf.mOther)
- 5*rHat*(mSelf.rHat)*(mOther.rHat) )` with `r = pSelf.pos - pOther.pos`,
`d = |r|`, `rHat = r/d` and `Kf = 3 * 1e-7 / d^4`. -/
theorem GetForceTorque_force_matches_spec_formula
    (p_self p_other : Pose) (m_self m_other : Vec3) (d : ℝ) (rHat : Vec3)
    (hsep : p_self.pos ≠ p_other.pos)
    (hd : d = (p_self.pos - p_other.pos).length)
    (hrhat : rHat = (p_self.pos - p_other.pos) / d) :
    (GetForceTorque p_self m_self p_other m_other).1 =
      (3 * (1e-7) / d ^ 4) •
        ((m_self.dot rHat) • m_other + (m_other.dot rHat) • m_self +
          (m_self.dot m_other) • rHat -
          (5 * (m_self.dot rHat) * (m_other.dot rHat)) • rHat) := by
  subst hd hrhat
  simp only [GetForceTorque]
  ext <;>
    simp only [Vec3.dot, Vec3.add_x, Vec3.add_y, Vec3.add_z, Vec3.sub_x,
      Vec3.sub_y, Vec3.sub_z, Vec3.smul_x, Vec3.smul_y, Vec3.smul_z,
      Vec3.div_x, Vec3.div_y, Vec3.div_z] <;>
    ring

/-- Witness for C1 at `pSelf = ((1,0,0), id)`, `pOther = ((0,0,0), id)`,
`mSelf = mOther = (1,0,0)`. -/
theorem GetForceTorque_force_matches_spec_formula_witness :
    (Vec3.mk 1 0 0 : Vec3) ≠ ⟨0, 0, 0⟩ ∧
    (GetForceTorque ⟨⟨1, 0, 0⟩, ⟨1, 0, 0, 0⟩⟩ ⟨1, 0, 0⟩
        ⟨⟨0, 0, 0⟩, ⟨1, 0, 0, 0⟩⟩ ⟨1, 0, 0⟩).1 =
      (3 * (1e-7) / (Vec3.mk 1 0 0 - Vec3.mk 0 0 0).length ^ 4) •
        ((Vec3.dot ⟨1, 0, 0⟩
            ((Vec3.mk 1 0 0 - Vec3.mk 0 0 0) /
              (Vec3.mk 1 0 0 - Vec3.mk 0 0 0).length)) • ⟨1, 0, 0⟩ +
          (Vec3.dot ⟨1, 0, 0⟩
            ((Vec3.mk 1 0 0 - Vec3.mk 0 0 0) /
              (Vec3.mk 1 0 0 - Vec3.mk 0 0 0).length)) • ⟨1, 0, 0⟩ +
          (Vec3.dot ⟨1, 0, 0⟩ ⟨1, 0, 0⟩) •
            ((Vec3.mk 1 0 0 - Vec3.mk 0 0 0) /
              (Vec3.mk 1 0 0 - Vec3.mk 0 0 0).length) -
          (5 * (Vec3.dot ⟨1, 0, 0⟩
              ((Vec3.mk 1 0 0 - Vec3.mk 0 0 0) /
                (Vec3.mk 1 0 0 - Vec3.mk 0 0 0).length)) *
            (Vec3.dot ⟨1, 0, 0⟩
              ((Vec3.mk 1 0 0 - Vec3.mk 0 0 0) /
                (Vec3.mk 1 0 0 - Vec3.mk 0 0 0).length))) •
            ((Vec3.mk 1 0 0 - Vec3.mk 0 0 0) /
              (Vec3.mk 1 0 0 - Vec3.mk 0 0 0).length)) :=
  ⟨by simp [Vec3.mk.injEq],
   GetForceTorque_force_matches_spec_formula
     ⟨⟨1, 0, 0⟩, ⟨1, 0, 0, 0⟩⟩ ⟨⟨0, 0, 0⟩, ⟨1, 0, 0, 0⟩⟩ ⟨1, 0, 0⟩ ⟨1, 0, 0⟩
     _ _ (by simp [Vec3.mk.injEq]) rfl rfl⟩

/-- C3: for distinct dipole positions and world-frame moments,
`GetForceTorque` returns the torque `mSelf x B`, where
`B = Kt * ( 3*(mOther.rHat)*rHat - mOther )` with `Kt = 1e-7 / d^3`. -/
theorem GetForceTorque_torque_matches_spec_formula
    (p_self p_other : Pose) (m_self m_other : Vec3) (d : ℝ) (rHat : Vec3)
    (hsep : p_self.pos ≠ p_other.pos)
    (hd : d = (p_self.pos - p_other.pos).length)
    (hrhat : rHat = (p_self.pos - p_other.pos) / d) :
    (GetForceTorque p_self m_self p_other m_other).2 =
      m_self.cross (((1e-7) / d ^ 3) •
        ((3 * (m_other.dot rHat)) • rHat - m_other)) := by
  subst hd hrhat
  rfl

/-- Witness for C3 at `pSelf = ((1,0,0), id)`, `pOther = ((0,0,0), id)`,
`mSelf = (0,1,0)`, `mOther = (1,0,0)`. -/
theorem GetForceTorque_torque_matches_spec_formula_witness :
    (Vec3.mk 1 0 0 : Vec3) ≠ ⟨0, 0, 0⟩ ∧
    (GetForceTorque ⟨⟨1, 0, 0⟩, ⟨1, 0, 0, 0⟩⟩ ⟨0, 1, 0⟩
        ⟨⟨0, 0, 0⟩, ⟨1, 0, 0, 0⟩⟩ ⟨1, 0, 0⟩).2 =
      Vec3.cross ⟨0, 1, 0⟩ (((1e-7) / (Vec3.mk 1 0 0 - Vec3.mk 0 0 0).length ^ 3) •
        ((3 * (Vec3.dot ⟨1, 0, 0⟩
            ((Vec3.mk 1 0 0 - Vec3.mk 0 0 0) /
              (Vec3.mk 1 0 0 - Vec3.mk 0 0 0).length))) •
          ((Vec3.mk 1 0 0 - Vec3.mk 0 0 0) /
            (Vec3.mk 1 0 0 - Vec3.mk 0 0 0).length) - ⟨1, 0, 0⟩)) :=
  ⟨by simp [Vec3.mk.injEq],
   GetForceTorque_torque_matches_spec_formula
     ⟨⟨1, 0, 0⟩, ⟨1, 0, 0, 0⟩⟩ ⟨⟨0, 0, 0⟩, ⟨1, 0, 0, 0⟩⟩ ⟨0, 1, 0⟩ ⟨1, 0, 0⟩
     _ _ (by simp [Vec3.mk.injEq]) rfl rfl⟩

/-- C4: for distinct dipole positions, `GetMFS` returns the other
dipole's flux density at the self location expressed in the self body
frame: the reverse rotation by `pSelf.rot` of
`B_world = (1e-7/d^3) * ( 3*(mOther.rHat)*rHat - mOther )`. -/
theorem GetMFS_matches_body_frame_field
    (p_self p_other : Pose) (m_other : Vec3) (d : ℝ) (rHat : Vec3)
    (hsep : p_self.pos ≠ p_other.pos)
    (hd : d = (p_self.pos - p_other.pos).length)
    (hrhat : rHat = (p_self.pos - p_other.pos) / d) :
    GetMFS p_self p_other m_other =
      p_self.rot.rotateVectorReverse (((1e-7) / d ^ 3) •
        ((3 * (m_other.dot rHat)) • rHat - m_other)) := by
  subst hd hrhat
  rfl

/-- Witness for C4 at `pSelf = ((1,0,0), id)`, `pOther = ((0,0,0), id)`,
`mOther = (1,0,0)`. -/
theorem GetMFS_matches_body_frame_field_witness :
    (Vec3.mk 1 0 0 : Vec3) ≠ ⟨0, 0, 0⟩ ∧
    GetMFS ⟨⟨1, 0, 0⟩, ⟨1, 0, 0, 0⟩⟩ ⟨⟨0, 0, 0⟩, ⟨1, 0, 0, 0⟩⟩ ⟨1, 0, 0⟩ =
      Quat.rotateVectorReverse ⟨1, 0, 0, 0⟩
        (((1e-7) / (Vec3.mk 1 0 0 - Vec3.mk 0 0 0).length ^ 3) •
          ((3 * (Vec3.dot ⟨1, 0, 0⟩
              ((Vec3.mk 1 0 0 - Vec3.mk 0 0 0) /
                (Vec3.mk 1 0 0 - Vec3.mk 0 0 0).length))) •
            ((Vec3.mk 1 0 0 - Vec3.mk 0 0 0) /
              (Vec3.mk 1 0 0 - Vec3.mk 0 0 0).length) - ⟨1, 0, 0⟩)) :=
  ⟨by simp [Vec3.mk.injEq],
   GetMFS_matches_body_frame_field
     ⟨⟨1, 0, 0⟩, ⟨1, 0, 0, 0⟩⟩ ⟨⟨0, 0, 0⟩, ⟨1, 0, 0, 0⟩⟩ ⟨1, 0, 0⟩
     _ _ (by simp [Vec3.mk.injEq]) rfl rfl⟩

/-- C7: with both moments `(1,0,0)`, self at `(1,0,0)` and other at the
origin, the force is exactly `(-6e-7, 0, 0)`: attraction pulling self
toward other. -/
theorem GetForceTorque_aligned_attraction :
    (GetForceTorque ⟨⟨1, 0, 0⟩, ⟨1, 0, 0, 0⟩⟩ ⟨1, 0, 0⟩
        ⟨⟨0, 0, 0⟩, ⟨1, 0, 0, 0⟩⟩ ⟨1, 0, 0⟩).1 = ⟨-(6e-7), 0, 0⟩ := by
  simp only [GetForceTorque]
  have hlen : Vec3.length (Vec3.mk 1 0 0 - Vec3.mk 0 0 0) = 1 := by
    unfold Vec3.length Vec3.lengthSq
    norm_num
  rw [hlen]
  ext <;> simp [Vec3.dot] <;> norm_num

/-- C2: on coincident dipole positions the code raises no error of any
kind: both `GetForceTorque` and `GetMFS` fall through their unguarded
division by zero and silently return a value (the zero vector in this
real-number model, where division by zero yields zero; NaN in the C++
double arithmetic).  No `DomainError` signalling path exists. -/
theorem GetForceTorque_GetMFS_coincident_silent_value :
    (GetForceTorque ⟨⟨0, 0, 0⟩, ⟨1, 0, 0, 0⟩⟩ ⟨1, 0, 0⟩
        ⟨⟨0, 0, 0⟩, ⟨1, 0, 0, 0⟩⟩ ⟨1, 0, 0⟩).1 = ⟨0, 0, 0⟩ ∧
    (GetForceTorque ⟨⟨0, 0, 0⟩, ⟨1, 0, 0, 0⟩⟩ ⟨1, 0, 0⟩
        ⟨⟨0, 0, 0⟩, ⟨1, 0, 0, 0⟩⟩ ⟨1, 0, 0⟩).2 = ⟨0, 0, 0⟩ ∧
    GetMFS ⟨⟨0, 0, 0⟩, ⟨1, 0, 0, 0⟩⟩ ⟨⟨0, 0, 0⟩, ⟨1, 0, 0, 0⟩⟩ ⟨1, 0, 0⟩ =
      ⟨0, 0, 0⟩ := by
  have hlen : Vec3.length (Vec3.mk 0 0 0 - Vec3.mk 0 0 0) = 0 := by
    unfold Vec3.length Vec3.lengthSq
    norm_num
  refine ⟨?_, ?_, ?_⟩
  · simp only [GetForceTorque]
    rw [hlen]
    ext <;> simp [Vec3.dot]
  · simp only [GetForceTorque]
    rw [hlen]
    ext <;> simp [Vec3.dot, Vec3.cross]
  · simp only [GetMFS]
    rw [hlen]
    ext <;> simp [Vec3.dot, Quat.rotateVectorReverse, Quat.inverse]

theorem Quat.normSq_inverse_of_unit (q : Quat) (h : q.normSq = 1) :
    q.inverse.normSq = 1 := by
  have hs : q.w ^ 2 + q.x ^ 2 + q.y ^ 2 + q.z ^ 2 = 1 := h
  simp only [Quat.inverse]
  rw [hs, if_neg one_ne_zero]
  unfold Quat.normSq
  have expand : (q.w / 1) ^ 2 + (-q.x / 1) ^ 2 + (-q.y / 1) ^ 2 + (-q.z / 1) ^ 2
      = q.w ^ 2 + q.x ^ 2 + q.y ^ 2 + q.z ^ 2 := by ring
  rw [expand, hs]

/-- C5: the resolved effective dipole world pose has position
`bodyPose.position - bodyPose.orientation.rotate(offset.position)` and
orientation `bodyPose.orientation * inverse(offset.orientation)`, and the
resulting orientation is a unit rotation whenever both inputs are. -/
theorem resolveDipolePose_spec (bodyPose offset : Pose)
    (hb : bodyPose.rot.normSq = 1) (ho : offset.rot.normSq = 1) :
    (resolveDipolePose bodyPose offset).pos =
        bodyPose.pos - bodyPose.rot.rotateVector offset.pos ∧
    (resolveDipolePose bodyPose offset).rot =
        bodyPose.rot * offset.rot.inverse ∧
    (resolveDipolePose bodyPose offset).rot.normSq = 1 := by
  refine ⟨?_, rfl, ?_⟩
  · show bodyPose.pos + -(bodyPose.rot.rotateVector offset.pos) =
        bodyPose.pos - bodyPose.rot.rotateVector offset.pos
    ext <;> simp <;> ring
  · show (bodyPose.rot * offset.rot.inverse).normSq = 1
    rw [Quat.normSq_mul, hb, Quat.normSq_inverse_of_unit offset.rot ho]
    norm_num

/-- Witness for C5 at `bodyPose = ((1,2,3), id)` and
`offset = ((0,0,1), (0,1,0,0))`, both orientations unit quaternions. -/
theorem resolveDipolePose_spec_witness :
    Quat.normSq ⟨1, 0, 0, 0⟩ = 1 ∧ Quat.normSq ⟨0, 1, 0, 0⟩ = 1 ∧
    ((resolveDipolePose ⟨⟨1, 2, 3⟩, ⟨1, 0, 0, 0⟩⟩ ⟨⟨0, 0, 1⟩, ⟨0, 1, 0, 0⟩⟩).pos =
        Vec3.mk 1 2 3 -
          Quat.rotateVector ⟨1, 0, 0, 0⟩ ⟨0, 0, 1⟩ ∧
      (resolveDipolePose ⟨⟨1, 2, 3⟩, ⟨1, 0, 0, 0⟩⟩ ⟨⟨0, 0, 1⟩, ⟨0, 1, 0, 0⟩⟩).rot =
        Quat.mk 1 0 0 0 * Quat.inverse ⟨0, 1, 0, 0⟩ ∧
      (resolveDipolePose ⟨⟨1, 2, 3⟩, ⟨1, 0, 0, 0⟩⟩ ⟨⟨0, 0, 1⟩, ⟨0, 1, 0, 0⟩⟩).rot.normSq = 1) :=
  ⟨by unfold Quat.normSq; norm_num,
   by unfold Quat.normSq; norm_num,
   resolveDipolePose_spec ⟨⟨1, 2, 3⟩, ⟨1, 0, 0, 0⟩⟩ ⟨⟨0, 0, 1⟩, ⟨0, 1, 0, 0⟩⟩
     (by unfold Quat.normSq; norm_num) (by unfold Quat.normSq; norm_num)⟩

/-- C6: exchanging the two argument groups of `GetForceTorque` negates
the returned force exactly (Newton's third law holds structurally). -/
theorem GetForceTorque_force_antisymm (p_self p_other : Pose)
    (m_self m_other : Vec3) (hsep : p_self.pos ≠ p_other.pos) :
    (GetForceTorque p_other m_other p_self m_self).1 =
      -((GetForceTorque p_self m_self p_other m_other).1) := by
  simp only [GetForceTorque]
  rw [Vec3.length_sub_comm p_self.pos p_other.pos]
  ext <;>
    simp only [Vec3.dot, Vec3.add_x, Vec3.add_y, Vec3.add_z, Vec3.sub_x,
      Vec3.sub_y, Vec3.sub_z, Vec3.smul_x, Vec3.smul_y, Vec3.smul_z,
      Vec3.div_x, Vec3.div_y, Vec3.div_z, Vec3.neg_x, Vec3.neg_y,
      Vec3.neg_z] <;>
    ring

/-- Witness for C6 at `pSelf = ((1,0,0), id)`, `pOther = ((0,0,0), id)`,
`mSelf = (1,0,0)`, `mOther = (0,1,0)`. -/
theorem GetForceTorque_force_antisymm_witness :
    (Vec3.mk 1 0 0 : Vec3) ≠ ⟨0, 0, 0⟩ ∧
    (GetForceTorque ⟨⟨0, 0, 0⟩, ⟨1, 0, 0, 0⟩⟩ ⟨0, 1, 0⟩
        ⟨⟨1, 0, 0⟩, ⟨1, 0, 0, 0⟩⟩ ⟨1, 0, 0⟩).1 =
      -((GetForceTorque ⟨⟨1, 0, 0⟩, ⟨1, 0, 0, 0⟩⟩ ⟨1, 0, 0⟩
          ⟨⟨0, 0, 0⟩, ⟨1, 0, 0, 0⟩⟩ ⟨0, 1, 0⟩).1) :=
  ⟨by simp [Vec3.mk.injEq],
   GetForceTorque_force_antisymm ⟨⟨1, 0, 0⟩, ⟨1, 0, 0, 0⟩⟩
     ⟨⟨0, 0, 0⟩, ⟨1, 0, 0, 0⟩⟩ ⟨1, 0, 0⟩ ⟨0, 1, 0⟩ (by simp [Vec3.mk.injEq])⟩

theorem Vec3.smul_smul (c e : ℝ) (v : Vec3) : c • (e • v) = (c * e) • v := by
  ext <;> simp <;> ring

theorem Vec3.cross_smul (a : Vec3) (c : ℝ) (b : Vec3) :
    a.cross (c • b) = c • a.cross b := by
  ext <;> simp [Vec3.cross] <;> ring

theorem Vec3.smul_div_mul (k d : ℝ) (r : Vec3) (hk : k ≠ 0) :
    (k • r) / (k * d) = r / d := by
  ext <;> simp <;> rw [mul_div_mul_left _ _ hk]

theorem GetForceTorque_force_scale (p_other : Pose) (q_self : Quat)
    (r m_self m_other : Vec3) (k : ℝ) (hr : r ≠ 0) (hk : 0 < k) :
    (GetForceTorque ⟨p_other.pos + k • r, q_self⟩ m_self p_other m_other).1 =
      (1 / k ^ 4) •
        (GetForceTorque ⟨p_other.pos + r, q_self⟩ m_self p_other m_other).1 := by
  have hk0 : k ≠ 0 := ne_of_gt hk
  have hlen : (k • r).length = k * r.length := by
    rw [Vec3.length_smul, abs_of_pos hk]
  have hK : 3 * (1e-7) / (k * r.length) ^ 4 =
      (1 / k ^ 4) * (3 * (1e-7) / r.length ^ 4) := by
    rw [mul_pow, div_mul_div_comm, one_mul]
  simp only [GetForceTorque, Vec3.add_sub_cancel_left]
  rw [hlen, Vec3.smul_div_mul k r.length r hk0, hK, ← Vec3.smul_smul]

theorem GetForceTorque_torque_scale (p_other : Pose) (q_self : Quat)
    (r m_self m_other : Vec3) (k : ℝ) (hr : r ≠ 0) (hk : 0 < k) :
    (GetForceTorque ⟨p_other.pos + k • r, q_self⟩ m_self p_other m_other).2 =
      (1 / k ^ 3) •
        (GetForceTorque ⟨p_other.pos + r, q_self⟩ m_self p_other m_other).2 := by
  have hk0 : k ≠ 0 := ne_of_gt hk
  have hlen : (k • r).length = k * r.length := by
    rw [Vec3.length_smul, abs_of_pos hk]
  have hK : (1e-7) / (k * r.length) ^ 3 =
      (1 / k ^ 3) * ((1e-7) / r.length ^ 3) := by
    rw [mul_pow, div_mul_div_comm, one_mul]
  simp only [GetForceTorque, Vec3.add_sub_cancel_left]
  rw [hlen, Vec3.smul_div_mul k r.length r hk0, hK, ← Vec3.smul_smul,
    Vec3.cross_smul]

theorem GetMFS_scale (p_other : Pose) (q_self : Quat) (r m_other : Vec3)
    (k : ℝ) (hr : r ≠ 0) (hk : 0 < k) :
    GetMFS ⟨p_other.pos + k • r, q_self⟩ p_other m_other =
      (1 / k ^ 3) • GetMFS ⟨p_other.pos + r, q_self⟩ p_other m_other := by
  have hk0 : k ≠ 0 := ne_of_gt hk
  have hlen : (k • r).length = k * r.length := by
    rw [Vec3.length_smul, abs_of_pos hk]
  have hK : (1e-7) / (k * r.length) ^ 3 =
      (1 / k ^ 3) * ((1e-7) / r.length ^ 3) := by
    rw [mul_pow, div_mul_div_comm, one_mul]
  simp only [GetMFS, Vec3.add_sub_cancel_left]
  rw [hlen, Vec3.smul_div_mul k r.length r hk0, hK, ← Vec3.smul_smul,
    Quat.rotateVectorReverse_smul]

/-- C8: scaling the separation vector by `k > 0` while keeping its
direction and the moments fixed scales the force magnitude by `1/k^4`,
the torque magnitude by `1/k^3`, and the `GetMFS` field magnitude by
`1/k^3`. -/
theorem GetForceTorque_GetMFS_falloff_scaling (p_other : Pose)
    (q_self : Quat) (r m_self m_other : Vec3) (k : ℝ)
    (hr : r ≠ 0) (hk : 0 < k) :
    (GetForceTorque ⟨p_other.pos + k • r, q_self⟩ m_self p_other m_other).1.length
        = (1 / k ^ 4) *
          (GetForceTorque ⟨p_other.pos + r, q_self⟩ m_self p_other m_other).1.length ∧
    (GetForceTorque ⟨p_other.pos + k • r, q_self⟩ m_self p_other m_other).2.length
        = (1 / k ^ 3) *
          (GetForceTorque ⟨p_other.pos + r, q_self⟩ m_self p_other m_other).2.length ∧
    (GetMFS ⟨p_other.pos + k • r, q_self⟩ p_other m_other).length
        = (1 / k ^ 3) *
          (GetMFS ⟨p_other.pos + r, q_self⟩ p_other m_other).length := by
  refine ⟨?_, ?_, ?_⟩
  · rw [GetForceTorque_force_scale p_other q_self r m_self m_other k hr hk,
      Vec3.length_smul, abs_of_pos (by positivity)]
  · rw [GetForceTorque_torque_scale p_other q_self r m_self m_other k hr hk,
      Vec3.length_smul, abs_of_pos (by positivity)]
  · rw [GetMFS_scale p_other q_self r m_other k hr hk,
      Vec3.length_smul, abs_of_pos (by positivity)]

/-- Witness for C8 at `pOther = ((0,0,0), id)`, `qSelf = id`,
`r = (1,0,0)`, `mSelf = (0,0,1)`, `mOther = (0,1,0)`, `k = 2`. -/
theorem GetForceTorque_GetMFS_falloff_scaling_witness :
    (Vec3.mk 1 0 0 : Vec3) ≠ 0 ∧ (0 : ℝ) < 2 ∧
    ((GetForceTorque ⟨Vec3.mk 0 0 0 + (2 : ℝ) • Vec3.mk 1 0 0, ⟨1, 0, 0, 0⟩⟩
          ⟨0, 0, 1⟩ ⟨⟨0, 0, 0⟩, ⟨1, 0, 0, 0⟩⟩ ⟨0, 1, 0⟩).1.length
        = (1 / (2 : ℝ) ^ 4) *
          (GetForceTorque ⟨Vec3.mk 0 0 0 + Vec3.mk 1 0 0, ⟨1, 0, 0, 0⟩⟩
            ⟨0, 0, 1⟩ ⟨⟨0, 0, 0⟩, ⟨1, 0, 0, 0⟩⟩ ⟨0, 1, 0⟩).1.length ∧
      (GetForceTorque ⟨Vec3.mk 0 0 0 + (2 : ℝ) • Vec3.mk 1 0 0, ⟨1, 0, 0, 0⟩⟩
          ⟨0, 0, 1⟩ ⟨⟨0, 0, 0⟩, ⟨1, 0, 0, 0⟩⟩ ⟨0, 1, 0⟩).2.length
        = (1 / (2 : ℝ) ^ 3) *
          (GetForceTorque ⟨Vec3.mk 0 0 0 + Vec3.mk 1 0 0, ⟨1, 0, 0, 0⟩⟩
            ⟨0, 0, 1⟩ ⟨⟨0, 0, 0⟩, ⟨1, 0, 0, 0⟩⟩ ⟨0, 1, 0⟩).2.length ∧
      (GetMFS ⟨Vec3.mk 0 0 0 + (2 : ℝ) • Vec3.mk 1 0 0, ⟨1, 0, 0, 0⟩⟩
          ⟨⟨0, 0, 0⟩, ⟨1, 0, 0, 0⟩⟩ ⟨0, 1, 0⟩).length
        = (1 / (2 : ℝ) ^ 3) *
          (GetMFS ⟨Vec3.mk 0 0 0 + Vec3.mk 1 0 0, ⟨1, 0, 0, 0⟩⟩
            ⟨⟨0, 0, 0⟩, ⟨1, 0, 0, 0⟩⟩ ⟨0, 1, 0⟩).length) :=
  ⟨by simp [Vec3.mk.injEq, show (0 : Vec3) = ⟨0, 0, 0⟩ from rfl],
   by norm_num,
   GetForceTorque_GetMFS_falloff_scaling ⟨⟨0, 0, 0⟩, ⟨1, 0, 0, 0⟩⟩
     ⟨1, 0, 0, 0⟩ ⟨1, 0, 0⟩ ⟨0, 0, 1⟩ ⟨0, 1, 0⟩ 2
     (by simp [Vec3.mk.injEq, show (0 : Vec3) = ⟨0, 0, 0⟩ from rfl])
     (by norm_num)⟩

/-- C9: the rate limit of `PublishData` is broken.  `last_time` is never
assigned after initialisation (it stays `0`), so with `update_rate = 1`
and one subscriber connected, calls at simulation times `2` and `21/10`
both emit, although they are only `1/10 < 1/update_rate` seconds apart.
The subscriber gate itself passes (`connect_count = 1 > 0` in both
calls). -/
theorem PublishData_rate_gate_violation :
    (PublishData true 1 ⟨1, 0⟩ 2).2 = true ∧
    (PublishData true 1 (PublishData true 1 ⟨1, 0⟩ 2).1 (21 / 10)).2 = true ∧
    (21 / 10 : ℝ) - 2 < 1 / 1 := by
  have h1 : PublishData true 1 ⟨1, 0⟩ 2 = (⟨1, 0⟩, true) := by
    unfold PublishData
    rw [if_pos ⟨rfl, by norm_num⟩, if_neg (by norm_num)]
  have h2 : PublishData true 1 ⟨1, 0⟩ (21 / 10) = (⟨1, 0⟩, true) := by
    unfold PublishData
    rw [if_pos ⟨rfl, by norm_num⟩, if_neg (by norm_num)]
  refine ⟨by rw [h1], ?_, by norm_num⟩
  rw [h1]
  exact congrArg Prod.snd h2

/-- C10: `Load` never assigns the child magnet's offset position, which
stays at its default `(0,0,0)`; whenever `childxyzOffset` or
`parentxyzOffset` is present, the value read from the element named
`xyzOffset` is stored into the parent magnet's offset position. -/
theorem loadOffsetPositions_child_never_assigned (sdf : SdfConfig) :
    (loadOffsetPositions sdf).2 = ⟨0, 0, 0⟩ ∧
    (sdf.hasElement ("childxyzOffset") = true →
      (loadOffsetPositions sdf).1 = sdf.getVec ("xyzOffset")) ∧
    (sdf.hasElement ("parentxyzOffset") = true →
      (loadOffsetPositions sdf).1 = sdf.getVec ("xyzOffset")) := by
  refine ⟨rfl, ?_, ?_⟩
  · intro h
    simp [loadOffsetPositions, h]
  · intro h
    simp [loadOffsetPositions, h]

/-- Example configuration: only `childxyzOffset` is present; the element
`xyzOffset` reads `(1,2,3)` while any other element reads `(9,9,9)`. -/
noncomputable def exampleSdf : SdfConfig where
  hasElement := fun s => s == ("childxyzOffset")
  getVec := fun s => if s == ("xyzOffset") then ⟨1, 2, 3⟩ else ⟨9, 9, 9⟩

/-- Witness for C10 on `exampleSdf`: the parent offset is read from
`xyzOffset` even though only `childxyzOffset` is present, and the child
offset stays zero. -/
theorem loadOffsetPositions_child_never_assigned_witness :
    exampleSdf.hasElement ("childxyzOffset") = true ∧
    (loadOffsetPositions exampleSdf).1 = exampleSdf.getVec ("xyzOffset") ∧
    (loadOffsetPositions exampleSdf).2 = ⟨0, 0, 0⟩ :=
  ⟨rfl,
   (loadOffsetPositions_child_never_assigned exampleSdf).2.1 rfl,
   (loadOffsetPositions_child_never_assigned exampleSdf).1⟩
